import Mathlib

/-!
# BlueGate gate-controller firmware: verification of the spec's claims

Shallow embedding of the firmware core of the `bluegate_esp32c6` repository:
the persistent key store (`src/keys.rs`), the configuration store
(`src/settings.rs`), the authentication audit log and GATT write handlers
(`src/ble_bas_peripheral.rs`), the gate finite-state machine (`src/fsm.rs`)
and the output driver state (`src/gpo.rs`).

Machine integers are modelled as `Nat` (byte values are kept `< 256` by the
operations that produce them); flash storage is modelled by an explicit
success flag plus a log of durable writes; the cryptographic primitives
(SHA-256, Ed25519 and P-256 verification) are abstract function parameters.
-/

namespace BlueGate

/-! ## Key store (src/keys.rs) -/

/-- A credential record: 33 bytes (`[u8; 33]` in the source). -/
abbrev Key := List Nat

/-- `STORE_KEYS`: maximum number of keys that can be stored (src/keys.rs). -/
def STORE_KEYS : Nat := 1024

/-- `KEY_FLAGS_MASK`: mask for the key-type flags, the 2 LSB bits of byte 0. -/
def KEY_FLAGS_MASK : Nat := 0x03

/-- `KeyStore::keys_match`: two records match iff the low two bits of byte 0
and bytes 1..33 agree (src/keys.rs lines 111-114). -/
def keys_match (stored provided : Key) : Bool :=
  (stored.headD 0 &&& KEY_FLAGS_MASK == provided.headD 0 &&& KEY_FLAGS_MASK)
    && stored.tail == provided.tail

/-- In-memory key table of `KeyStore` (src/keys.rs line 26). -/
structure KeyStore where
  keys : List Key
deriving DecidableEq

/-- Abstract flash error (`sequential_storage::Error`). -/
inductive FlashError where
  | err : FlashError
deriving DecidableEq

/-- Equality on key-store results is decidable. -/
instance {ε α : Type} [DecidableEq ε] [DecidableEq α] : DecidableEq (Except ε α) :=
  fun a b =>
    match a, b with
    | Except.ok x, Except.ok y =>
        if h : x = y then Decidable.isTrue (by rw [h])
        else Decidable.isFalse (by intro hc; cases hc; exact h rfl)
    | Except.error x, Except.error y =>
        if h : x = y then Decidable.isTrue (by rw [h])
        else Decidable.isFalse (by intro hc; cases hc; exact h rfl)
    | Except.ok _, Except.error _ => Decidable.isFalse (by intro hc; cases hc)
    | Except.error _, Except.ok _ => Decidable.isFalse (by intro hc; cases hc)

/-- `KeyStore::add` (src/keys.rs lines 118-134): duplicate check, then push,
then persist.  Persistence is abstracted by `flashOk`; on persistence failure
the error is propagated by `?` with the key ALREADY pushed — the in-memory
state is not restored.  Returns the result together with the in-memory table
afterwards. -/
def KeyStore.add (flashOk : Bool) (s : KeyStore) (key : Key) :
    Except FlashError Bool × KeyStore :=
  if s.keys.any (fun stored => keys_match stored key) then
    (Except.ok false, s)
  else if STORE_KEYS ≤ s.keys.length then
    (Except.ok false, s)
  else if flashOk then (Except.ok true, ⟨s.keys ++ [key]⟩)
  else (Except.error FlashError.err, ⟨s.keys ++ [key]⟩)

/-- `KeyStore::del` (src/keys.rs lines 139-157): remove the first match, then
persist; on persistence failure the error propagates with the key already
removed from the in-memory table. -/
def KeyStore.del (flashOk : Bool) (s : KeyStore) (key : Key) :
    Except FlashError Bool × KeyStore :=
  match s.keys.findIdx? (fun stored => keys_match stored key) with
  | some idx =>
      if flashOk then (Except.ok true, ⟨s.keys.eraseIdx idx⟩)
      else (Except.error FlashError.err, ⟨s.keys.eraseIdx idx⟩)
  | none => (Except.ok false, s)

/-- `KeyStore::lookup` (src/keys.rs lines 162-169): first byte of the first
matching stored record, or 0 when none matches. -/
def KeyStore.lookup (s : KeyStore) (key : Key) : Nat :=
  match s.keys.find? (fun stored => keys_match stored key) with
  | some stored => stored.headD 0
  | none => 0

/-- `KeyStore::len` (src/keys.rs lines 172-174). -/
def KeyStore.len (s : KeyStore) : Nat := s.keys.length

/-- `KeyStore::get` (src/keys.rs lines 183-185). -/
def KeyStore.get (s : KeyStore) (index : Nat) : Option Key := s.keys[index]?

/-! ## Config store (src/settings.rs) -/

/-- `MAX_NAME_LEN` (src/settings.rs line 14). -/
def MAX_NAME_LEN : Nat := 64

/-- The 64-byte null-padded array stored by `ConfigStore::set_name`
(src/settings.rs lines 165-169): the first `min (length name) 63` bytes of the
name, the rest zero. -/
def nameToBytes (name : List Nat) : List Nat :=
  let len := min name.length (MAX_NAME_LEN - 1)
  name.take len ++ List.replicate (MAX_NAME_LEN - len) 0

/-- Index of the first zero byte, or `MAX_NAME_LEN` when there is none
(`bytes.iter().position(|&b| b == 0).unwrap_or(MAX_NAME_LEN)`,
src/settings.rs line 137). -/
def firstZeroLen (bytes : List Nat) : Nat :=
  (bytes.findIdx? (fun b => b == 0)).getD MAX_NAME_LEN

/-- UTF-8 continuation byte test. -/
def utf8Cont (c : Nat) : Bool := 0x80 ≤ c && c ≤ 0xBF

/-- Validity of a byte sequence as UTF-8, as checked by
`core::str::from_utf8`. -/
def utf8Valid : List Nat → Bool
  | [] => true
  | b :: rest =>
    if b < 0x80 then utf8Valid rest
    else if b < 0xC2 then false
    else if b ≤ 0xDF then
      match rest with
      | c1 :: r => utf8Cont c1 && utf8Valid r
      | [] => false
    else if b ≤ 0xEF then
      match rest with
      | c1 :: c2 :: r =>
          (if b = 0xE0 then 0xA0 ≤ c1 && c1 ≤ 0xBF
           else if b = 0xED then 0x80 ≤ c1 && c1 ≤ 0x9F
           else utf8Cont c1) && utf8Cont c2 && utf8Valid r
      | _ => false
    else if b ≤ 0xF4 then
      match rest with
      | c1 :: c2 :: c3 :: r =>
          (if b = 0xF0 then 0x90 ≤ c1 && c1 ≤ 0xBF
           else if b = 0xF4 then 0x80 ≤ c1 && c1 ≤ 0x8F
           else utf8Cont c1) && utf8Cont c2 && utf8Cont c3 && utf8Valid r
      | _ => false
    else false

/-- `heapless::String::push_str`: appends only when the result fits the
capacity (`MAX_NAME_LEN`), otherwise leaves the string unchanged. -/
def pushStr (s t : List Nat) : List Nat :=
  if s.length + t.length ≤ MAX_NAME_LEN then s ++ t else s

/-- `ConfigStore::get_name` (src/settings.rs lines 122-158) applied to the
fetched 64-byte value (`none` models both an absent value and a flash read
error, which the source treats alike). -/
def get_name (defaultName : List Nat) (stored : Option (List Nat)) : List Nat :=
  match stored with
  | some bytes =>
      let len := firstZeroLen bytes
      let slice := bytes.take len
      let s := if utf8Valid slice then pushStr [] slice else []
      if s.isEmpty then pushStr s defaultName else s
  | none => pushStr [] defaultName

/-! ## Authentication audit log (src/ble_bas_peripheral.rs lines 30-106) -/

/-- `AUTH_LOG_CAP` (src/ble_bas_peripheral.rs line 30). -/
def AUTH_LOG_CAP : Nat := 100

/-- `AUTH_LOG_ENTRY_LEN` (src/ble_bas_peripheral.rs line 31). -/
def AUTH_LOG_ENTRY_LEN : Nat := 50

/-- `AuthLogEntry` (src/ble_bas_peripheral.rs lines 33-40). -/
structure AuthLogEntry where
  pubkey : List Nat
  uptime_ms : Nat
  addr : List Nat
  auth_action : Nat
  success : Bool
deriving DecidableEq

/-- `AuthLogEntry::default` (src/ble_bas_peripheral.rs lines 41-51). -/
def AuthLogEntry.zero : AuthLogEntry :=
  ⟨List.replicate 33 0, 0, List.replicate 6 0, 0, false⟩

/-- `AuthLog` ring buffer (src/ble_bas_peripheral.rs lines 54-58); the
100-slot array is modelled as a function from indices. -/
structure AuthLog where
  entries : Nat → AuthLogEntry
  write_idx : Nat
  count : Nat

/-- `AuthLog::new` (src/ble_bas_peripheral.rs lines 61-67). -/
def AuthLog.new : AuthLog := ⟨fun _ => AuthLogEntry.zero, 0, 0⟩

/-- `AuthLog::push` (src/ble_bas_peripheral.rs lines 69-75). -/
def AuthLog.push (l : AuthLog) (e : AuthLogEntry) : AuthLog :=
  { entries := fun i => if i = l.write_idx then e else l.entries i
    write_idx := (l.write_idx + 1) % AUTH_LOG_CAP
    count := if l.count < AUTH_LOG_CAP then l.count + 1 else l.count }

/-- `AuthLog::get` (src/ble_bas_peripheral.rs lines 81-92). -/
def AuthLog.get (l : AuthLog) (index : Nat) : Option AuthLogEntry :=
  if l.count ≤ index then none
  else
    let newest_idx := if l.write_idx = 0 then AUTH_LOG_CAP - 1 else l.write_idx - 1
    some (l.entries ((newest_idx + AUTH_LOG_CAP - index) % AUTH_LOG_CAP))

/-- Little-endian byte encoding of width `w` (`to_le_bytes`). -/
def leBytes : Nat → Nat → List Nat
  | 0, _ => []
  | w + 1, n => (n % 256) :: leBytes w (n / 256)

/-- `AuthLog::entry_bytes` (src/ble_bas_peripheral.rs lines 94-105): the
50-byte encoding; out-of-range indices leave the buffer all zero. -/
def AuthLog.entry_bytes (l : AuthLog) (index : Nat) : List Nat :=
  match l.get index with
  | some e =>
      (1 ||| (if e.success then 2 else 0)) ::
        (e.pubkey ++ leBytes 8 e.uptime_ms ++ e.addr ++ leBytes 2 e.auth_action)
  | none => List.replicate AUTH_LOG_ENTRY_LEN 0

/-- Pushing a list of entries in order (oldest first). -/
def AuthLog.pushAll (l : AuthLog) (L : List AuthLogEntry) : AuthLog :=
  L.foldl AuthLog.push l

/-! ## Gate data types

`Door`, `LampState`, `GpoCommand`, `FsmCommand`, `GpiEvent` and `GateState`
live in `src/types.rs`, which is not among the provided source files; their
variants are modelled from the spec (§4.4 and the glossary) and are fully
pinned down by their uses in src/fsm.rs and src/gpo.rs. -/

/-- Modelled from the spec: the two physically independent gate leaves
(`Door` in src/types.rs). -/
inductive Door where
  | Left : Door
  | Right : Door
deriving DecidableEq

/-- Modelled from the spec: signalling-lamp state `{Off, Blinking}`
(`LampState` in src/types.rs). -/
inductive LampState where
  | Off : LampState
  | Blinking : LampState
deriving DecidableEq

/-- Modelled from the spec: output-driver commands
`{SetDoorOpen(door,bool), SetDoorClose(door,bool), SetLamp(state)}`
(`GpoCommand` in src/types.rs). -/
inductive GpoCommand where
  | SetDoorOpen (door : Door) (active : Bool) : GpoCommand
  | SetDoorClose (door : Door) (active : Bool) : GpoCommand
  | SetLamp (state : LampState) : GpoCommand
deriving DecidableEq

/-- Modelled from the spec: FSM command queue alphabet
`{Open, Close, StopAutoClose}` (`FsmCommand` in src/types.rs). -/
inductive FsmCommand where
  | Open : FsmCommand
  | Close : FsmCommand
  | StopAutoClose : FsmCommand
deriving DecidableEq

/-- Modelled from the spec: debounced-input events
`{ControlPulse, ObstacleDetected, ObstacleCleared}` (`GpiEvent` in
src/types.rs). -/
inductive GpiEvent where
  | ControlPulse : GpiEvent
  | ObstacleDetected : GpiEvent
  | ObstacleCleared : GpiEvent
deriving DecidableEq

/-- Modelled from the spec: gate state `{Closed, Opening, Open, Closing}`
(`GateState` in src/types.rs). -/
inductive GateState where
  | Closed : GateState
  | Opening : GateState
  | Open : GateState
  | Closing : GateState
deriving DecidableEq

/-! ## Output driver state (src/gpo.rs) -/

/-- `GpoState` (src/gpo.rs lines 17-23). -/
structure GpoState where
  left_open : Bool
  left_close : Bool
  right_open : Bool
  right_close : Bool
  lamp_state : LampState
deriving DecidableEq

/-- `GpoState::new` (src/gpo.rs lines 26-34). -/
def GpoState.new : GpoState := ⟨false, false, false, false, LampState.Off⟩

/-- `GpoState::apply_command` (src/gpo.rs lines 36-48). -/
def GpoState.apply_command (s : GpoState) : GpoCommand → GpoState
  | GpoCommand.SetDoorOpen Door.Left a => { s with left_open := a }
  | GpoCommand.SetDoorOpen Door.Right a => { s with right_open := a }
  | GpoCommand.SetDoorClose Door.Left a => { s with left_close := a }
  | GpoCommand.SetDoorClose Door.Right a => { s with right_close := a }
  | GpoCommand.SetLamp st => { s with lamp_state := st }

/-- Folding a command sequence into the output state, in the order the GPO
task receives it over its FIFO channel. -/
def applyCmds (s : GpoState) (cs : List GpoCommand) : GpoState :=
  cs.foldl GpoState.apply_command s

/-! ## Gate state signal (src/fsm.rs lines 20-40)

The `CURRENT_STATE` single-slot signal is modelled as an `Option GateState`;
`Signal::signal` overwrites the slot, `Signal::try_take` empties it. -/

/-- `get_state` (src/fsm.rs lines 32-35): `try_take().unwrap_or(Closed)`.
Returns the read value together with the signal slot afterwards. -/
def get_state (sig : Option GateState) : GateState × Option GateState :=
  (sig.getD GateState.Closed, none)

/-- `set_state` (src/fsm.rs lines 37-40): after the logging read, the slot
holds the new state. -/
def set_state (_sig : Option GateState) (s : GateState) : Option GateState :=
  some s

/-! ## FSM command traces (src/fsm.rs)

The FSM emits `GpoCommand`s through the GPO channel.  Within one state
handler the only concurrency is `join` over the two per-door futures (and,
during Closing, the obstacle monitor); the possible emission orders are the
interleavings of the per-door command sequences.  Timers and channel
receptions emit nothing. -/

/-- All interleavings of two sequences (each kept in order), with explicit
fuel for structural recursion; the fuel never runs out when it starts at the
combined length. -/
def interleavingsF : Nat → List α → List α → List (List α)
  | 0, xs, ys => [xs ++ ys]
  | _ + 1, [], ys => [ys]
  | _ + 1, x :: xs, [] => [x :: xs]
  | f + 1, x :: xs, y :: ys =>
      (interleavingsF f xs (y :: ys)).map (x :: ·) ++
        (interleavingsF f (x :: xs) ys).map (y :: ·)

/-- All interleavings of two sequences (each kept in order). -/
def interleavings (xs ys : List α) : List (List α) :=
  interleavingsF (xs.length + ys.length) xs ys

/-- Commands emitted by `open_door` (src/fsm.rs lines 125-142), in order. -/
def openSeq (d : Door) : List GpoCommand :=
  [GpoCommand.SetDoorOpen d true, GpoCommand.SetDoorOpen d false]

/-- Commands emitted by `close_door_with_obstacle_monitor` on the un-aborted
path (src/fsm.rs lines 298-333), in order. -/
def closeSeq (d : Door) : List GpoCommand :=
  [GpoCommand.SetDoorClose d true, GpoCommand.SetDoorClose d false]

/-- `commands::lamp_on` payload (src/gpo.rs lines 180-182). -/
def lampOn : GpoCommand := GpoCommand.SetLamp LampState.Blinking

/-- `commands::lamp_off` payload (src/gpo.rs lines 184-186). -/
def lampOff : GpoCommand := GpoCommand.SetLamp LampState.Off

/-- Commands emitted at `fsm_task` start (src/fsm.rs lines 44-50):
`stop_all_doors` (src/gpo.rs lines 189-210) then `lamp_off`. -/
def initCmds : List GpoCommand :=
  [GpoCommand.SetDoorOpen Door.Left false, GpoCommand.SetDoorOpen Door.Right false,
   GpoCommand.SetDoorClose Door.Left false, GpoCommand.SetDoorClose Door.Right false,
   lampOff]

/-- `EpTrace g g' t`: one pass through the state handler for `g` can emit the
command sequence `t` and leave the FSM in state `g'` (src/fsm.rs lines 52-67):

* `Closed` waits and emits nothing, leaving to `Opening`
  (`handle_closed_state`, lines 71-101);
* `Opening` emits `lamp_on`, an interleaving of the two door-opening
  sequences, then `lamp_off` (`handle_opening_state`, lines 104-122);
* `Open` emits nothing and leaves to `Closing` (`handle_open_state`,
  lines 145-245);
* `Closing` emits `lamp_on` then either a full interleaving of the two
  door-closing sequences and `lamp_off` (doors closed), or — when the
  obstacle monitor fires first, cancelling the door futures after they
  emitted some interleaved prefixes — the explicit `stop_closing` pair
  before reversing to `Opening` (`handle_closing_state`, lines 248-294). -/
inductive EpTrace : GateState → GateState → List GpoCommand → Prop where
  | closed_open : EpTrace GateState.Closed GateState.Opening []
  | opening (m : List GpoCommand)
      (hm : m ∈ interleavings (openSeq Door.Left) (openSeq Door.Right)) :
      EpTrace GateState.Opening GateState.Open (lampOn :: m ++ [lampOff])
  | open_closing : EpTrace GateState.Open GateState.Closing []
  | closing_done (m : List GpoCommand)
      (hm : m ∈ interleavings (closeSeq Door.Left) (closeSeq Door.Right)) :
      EpTrace GateState.Closing GateState.Closed (lampOn :: m ++ [lampOff])
  | closing_abort (pL pR m : List GpoCommand)
      (hL : pL ∈ (closeSeq Door.Left).inits) (hR : pR ∈ (closeSeq Door.Right).inits)
      (hm : m ∈ interleavings pL pR) :
      EpTrace GateState.Closing GateState.Opening
        (lampOn :: m ++ [GpoCommand.SetDoorClose Door.Left false,
                         GpoCommand.SetDoorClose Door.Right false])

/-- Output states at FSM-loop boundaries: after start-up initialization, and
after each completed state-handler pass. -/
inductive ReachBoundary : GateState → GpoState → Prop where
  | start : ReachBoundary GateState.Closed (applyCmds GpoState.new initCmds)
  | step {g g' : GateState} {s : GpoState} {t : List GpoCommand} :
      ReachBoundary g s → EpTrace g g' t → ReachBoundary g' (applyCmds s t)

/-- Every output state the GPO driver can be in at any point of the FSM's
execution: a state reached by applying some prefix of the initialization
commands, or a boundary state extended by a prefix of a current episode's
command trace. -/
inductive ReachMid : GpoState → Prop where
  | initPart {p : List GpoCommand} (hp : p ∈ initCmds.inits) :
      ReachMid (applyCmds GpoState.new p)
  | episode {g g' : GateState} {s : GpoState} {t p : List GpoCommand}
      (hb : ReachBoundary g s) (he : EpTrace g g' t) (hp : p ∈ t.inits) :
      ReachMid (applyCmds s p)

/-- All four door relays deasserted. -/
def relaysOff (s : GpoState) : Bool :=
  !s.left_open && !s.left_close && !s.right_open && !s.right_close

/-- No door has its open relay and close relay asserted simultaneously. -/
def noConflict (s : GpoState) : Bool :=
  !(s.left_open && s.left_close) && !(s.right_open && s.right_close)

/-! ## Open state with autoclose disabled (src/fsm.rs lines 206-244) -/

/-- Loop-local state of `handle_open_state`: the `do_close` pulse counter and
`last_close_attempt` timestamp (src/fsm.rs lines 149-150); at state entry
`do_close = 0` and `last_close_attempt = Instant::now()`. -/
structure OpenLoopState where
  do_close : Nat
  last_close_attempt : Nat
deriving DecidableEq

/-- One iteration of the autoclose-disabled branch of `handle_open_state`
(src/fsm.rs lines 206-244) on the event the `select` delivered at time `now`
(milliseconds): `Sum.inr ()` means the handler sets the state to `Closing`
and returns; `Sum.inl` is the updated loop state. -/
def openDisabledStep (st : OpenLoopState) (now : Nat) :
    FsmCommand ⊕ GpiEvent → OpenLoopState ⊕ Unit
  | Sum.inl FsmCommand.Open => Sum.inl st
  | Sum.inl FsmCommand.Close => Sum.inr ()
  | Sum.inl FsmCommand.StopAutoClose => Sum.inl st
  | Sum.inr GpiEvent.ControlPulse =>
      let dc := if now - st.last_close_attempt < 10000 then st.do_close + 1 else 1
      if 2 < dc then Sum.inr () else Sum.inl ⟨dc, now⟩
  | Sum.inr GpiEvent.ObstacleDetected => Sum.inl st
  | Sum.inr GpiEvent.ObstacleCleared => Sum.inl st

/-- Running the autoclose-disabled loop over a timestamped event arrival
sequence; yields the index of the event on which the FSM transitions to
`Closing`, or `none` if it never does. -/
def runOpenDisabled (st : OpenLoopState) : List (Nat × (FsmCommand ⊕ GpiEvent)) → Option Nat
  | [] => none
  | (t, ev) :: rest =>
      match openDisabledStep st t ev with
      | Sum.inl st' => (runOpenDisabled st' rest).map (· + 1)
      | Sum.inr _ => some 0

/-- Modelled from the claim's words: the length of the chain of`ControlPulse`
events ending at the current pulse in which each pulse follows the previous
one within 10 seconds (formalized as strictly less than 10000 ms); the
counter restarts at 1 otherwise, and a lone pulse counts 1. -/
def specChainStep (lastPulse : Option Nat) (len : Nat) (now : Nat) : Nat :=
  match lastPulse with
  | none => 1
  | some t => if now - t < 10000 then len + 1 else 1

/-- Modelled from the claim's words: the first event index at which the gate
must start closing — an explicit `Close` command, or the third `ControlPulse`
of a sequence in which each pulse follows the previous one within 10
seconds. -/
def specTrigger (lastPulse : Option Nat) (len : Nat) :
    List (Nat × (FsmCommand ⊕ GpiEvent)) → Option Nat
  | [] => none
  | (t, ev) :: rest =>
      match ev with
      | Sum.inl FsmCommand.Close => some 0
      | Sum.inr GpiEvent.ControlPulse =>
          let len' := specChainStep lastPulse len t
          if 3 ≤ len' then some 0
          else (specTrigger (some t) len' rest).map (· + 1)
      | _ => (specTrigger lastPulse len rest).map (· + 1)

/-! ## GATT server state and handlers (src/ble_bas_peripheral.rs) -/

/-- The characteristic values of the `GateService` GATT server that the
handlers read and write (src/ble_bas_peripheral.rs lines 115-167).  The
server is created once; values live across connections unless explicitly
overwritten. -/
structure GattState where
  nonce : List Nat
  client_pubkey : List Nat
  client_nonce : List Nat
  client_key_ack : Bool
  authenticate_ack : Bool
  auth_action : Nat
  perm : Nat
  management : Nat
  management_key : List Nat
  management_param_id : Nat
  management_param_val : Nat
  management_name : List Nat
deriving DecidableEq

/-- Permission flag constants (src/ble_bas_peripheral.rs lines 170-172). -/
def PERM_ADMIN : Nat := 0x80

/-- `PERM_ADMADMIN` (src/ble_bas_peripheral.rs line 171). -/
def PERM_ADMADMIN : Nat := 0x40

/-- `PERM_SETADMIN` (src/ble_bas_peripheral.rs line 172). -/
def PERM_SETADMIN : Nat := 0x20

/-- Management action codes (src/ble_bas_peripheral.rs lines 175-180). -/
def MGMT_ADD_KEY : Nat := 0x01

/-- `MGMT_DEL_KEY`. -/
def MGMT_DEL_KEY : Nat := 0x02

/-- `MGMT_GET_KEY`. -/
def MGMT_GET_KEY : Nat := 0x03

/-- `MGMT_SET_PARAM`. -/
def MGMT_SET_PARAM : Nat := 0x10

/-- `MGMT_GET_PARAM`. -/
def MGMT_GET_PARAM : Nat := 0x11

/-- `MGMT_SET_NAME`. -/
def MGMT_SET_NAME : Nat := 0x20

/-- Management result codes (src/ble_bas_peripheral.rs lines 183-187). -/
def MGMT_OK : Nat := 0x00

/-- `MGMT_ERR_NOT_ADMIN`. -/
def MGMT_ERR_NOT_ADMIN : Nat := 0x01

/-- `MGMT_ERR_FLASH`. -/
def MGMT_ERR_FLASH : Nat := 0x02

/-- `MGMT_ERR_NOT_FOUND`. -/
def MGMT_ERR_NOT_FOUND : Nat := 0x03

/-- `MGMT_ERR_INVALID`. -/
def MGMT_ERR_INVALID : Nat := 0x04

/-- The per-connection initialization performed by `run` when `advertise`
accepts a connection (src/ble_bas_peripheral.rs lines 231-245): it sets
`client_key_ack := false`, `authenticate_ack := false`, `auth_action := 1`,
`management := 0`, fills `management_name` from the current device name
(first `min len 63` bytes, null-padded to 64) and samples a fresh `nonce`
from the RNG.  No other characteristic is written. -/
def onConnect (s : GattState) (currentName : List Nat) (newNonce : List Nat) :
    GattState :=
  { s with
    client_key_ack := false
    authenticate_ack := false
    auth_action := 1
    management := 0
    management_name := nameToBytes currentName
    nonce := newNonce }

/-- Abstract cryptographic primitives used by the `authenticate` handler:
SHA-256, `ed25519_dalek::VerifyingKey::from_bytes` success,
Ed25519 verification, and `verify_secp256r1_sha256`
(src/ble_bas_peripheral.rs lines 753-768). -/
structure Crypto where
  sha256 : List Nat → List Nat
  edKeyValid : List Nat → Bool
  edVerify : List Nat → List Nat → List Nat → Bool
  p256Verify : List Nat → List Nat → List Nat → Bool

/-- The GATT `Error` values the handler can surface; `InvalidValue` is the
one raised by the `authenticate` write handler. -/
inductive BleError where
  | invalidValue : BleError
deriving DecidableEq

/-- Result of a completed `authenticate` write: updated characteristics,
updated audit log, and the FSM commands sent. -/
structure AuthOutcome where
  state : GattState
  log : AuthLog
  cmds : List FsmCommand

/-- The `authenticate` characteristic write handler
(src/ble_bas_peripheral.rs lines 357-427).  `d` is the written payload,
`now` the uptime in ms, `peerAddr` the 6-byte peer address.  For a 64-byte
payload with key-type byte 1, an invalid Edwards key makes
`VerifyingKey::from_bytes(...).map_err(|_| Error::InvalidValue)?` abort the
handler with a transport error; otherwise `auth_success` is the verification
result (false for any other length or key type), `authenticate_ack` is set
to it, one audit entry is pushed, and on success FSM commands are emitted
according to `auth_action & 0x7f` (`Open`; `Open` plus `StopAutoClose` when
`perm > 3`; `Close`). -/
def authenticateWrite (c : Crypto) (s : GattState) (log : AuthLog)
    (d : List Nat) (now : Nat) (peerAddr : List Nat) :
    Except BleError AuthOutcome :=
  let pubkey := s.client_pubkey
  let keytype := pubkey.headD 0
  let step : Except BleError Bool :=
    if d.length = 64 then
      let digest := c.sha256 (s.nonce ++ s.client_nonce)
      if keytype = 1 then
        let key32 := pubkey.drop 1
        if c.edKeyValid key32 then Except.ok (c.edVerify key32 digest d)
        else Except.error BleError.invalidValue
      else if keytype = 2 ∨ keytype = 3 then
        Except.ok (c.p256Verify digest d pubkey)
      else Except.ok false
    else Except.ok false
  match step with
  | Except.error e => Except.error e
  | Except.ok auth_success =>
      let entry : AuthLogEntry :=
        { pubkey := pubkey
          uptime_ms := now
          addr := peerAddr
          auth_action := s.auth_action
          success := auth_success }
      let cmds : List FsmCommand :=
        if auth_success then
          match s.auth_action &&& 0x7f with
          | 1 => [FsmCommand.Open]
          | 2 => FsmCommand.Open ::
                  (if 3 < s.perm then [FsmCommand.StopAutoClose] else [])
          | 3 => [FsmCommand.Close]
          | _ => []
        else []
      Except.ok
        { state := { s with authenticate_ack := auth_success }
          log := log.push entry
          cmds := cmds }

/-- The verification result `auth_success` computed by the `authenticate`
handler on the paths where it completes (src/ble_bas_peripheral.rs lines
363-389): the Ed25519 result for key type 1 (the handler reaches it only
when the Edwards key parses — otherwise it aborts, see the C4
counterexample), the P-256 result for key types 2 and 3, and false for any
other key type or for a payload whose length is not 64. -/
def authVerifyResult (c : Crypto) (s : GattState) (d : List Nat) : Bool :=
  if d.length = 64 then
    let digest := c.sha256 (s.nonce ++ s.client_nonce)
    let keytype := s.client_pubkey.headD 0
    if keytype = 1 then c.edVerify (s.client_pubkey.drop 1) digest d
    else if keytype = 2 ∨ keytype = 3 then c.p256Verify digest d s.client_pubkey
    else false
  else false

/-- Effects of one `management` characteristic write. `resultCode = none`
models `esp_hal::system::software_reset()` (the handler never returns and no
result is notified); `cfgWrites` are the durable `set_slot` writes performed
and `nameWrite` the durable `set_name` write, recorded only when the flash
operation succeeds. -/
structure MgmtEffect where
  resultCode : Option Nat
  keys : KeyStore
  cfgWrites : List (Nat × Nat)
  nameWrite : Option (List Nat)
  param_val_out : Nat
  key_out : List Nat
deriving DecidableEq

/-- The `management` characteristic write handler
(src/ble_bas_peripheral.rs lines 465-601).  `flashOk` abstracts the success
of the flash operations; `cfg` is the configuration map read by
`GET_PARAM`. -/
def managementWrite (sess : GattState) (ks : KeyStore) (action : Nat)
    (flashOk : Bool) (cfg : Nat → Option Nat) : MgmtEffect :=
  let base : MgmtEffect :=
    { resultCode := none, keys := ks, cfgWrites := [], nameWrite := none
      param_val_out := sess.management_param_val, key_out := sess.management_key }
  let is_admin := sess.perm &&& PERM_ADMIN == PERM_ADMIN
  let is_admadmin := sess.perm &&& PERM_ADMADMIN == PERM_ADMADMIN
  let is_setadmin := sess.perm &&& PERM_SETADMIN == PERM_SETADMIN
  if !is_admin || !sess.authenticate_ack then
    { base with resultCode := some MGMT_ERR_NOT_ADMIN }
  else if action = MGMT_ADD_KEY then
    let key := sess.management_key
    if (key.headD 0 &&& 0xf0 == 0) || is_admadmin then
      let r := KeyStore.add flashOk ks key
      let code :=
        match r.1 with
        | Except.ok true => MGMT_OK
        | Except.ok false => MGMT_ERR_INVALID
        | Except.error _ => MGMT_ERR_FLASH
      { base with resultCode := some code, keys := r.2 }
    else
      { base with resultCode := some MGMT_ERR_NOT_ADMIN }
  else if action = MGMT_DEL_KEY then
    let key := sess.management_key
    let found := ks.lookup key
    if found = 0 then
      { base with resultCode := some MGMT_ERR_NOT_FOUND }
    else if (found &&& 0xf0 == 0) || is_admadmin then
      let r := KeyStore.del flashOk ks key
      let code :=
        match r.1 with
        | Except.ok true => MGMT_OK
        | Except.ok false => MGMT_ERR_NOT_FOUND
        | Except.error _ => MGMT_ERR_FLASH
      { base with resultCode := some code, keys := r.2 }
    else
      { base with resultCode := some MGMT_ERR_NOT_ADMIN }
  else if action = MGMT_GET_KEY then
    let index := sess.management_param_val
    let count := ks.len
    match ks.get index with
    | some key =>
        { base with resultCode := some MGMT_OK, param_val_out := count
                    key_out := key }
    | none =>
        { base with resultCode := some MGMT_ERR_NOT_FOUND, param_val_out := count }
  else if action = MGMT_SET_PARAM then
    if is_setadmin then
      let slot := sess.management_param_id
      let value := sess.management_param_val
      if slot = 31 then
        -- software_reset() is called BEFORE config.set_slot: nothing persists
        { base with resultCode := none }
      else if flashOk then
        { base with resultCode := some MGMT_OK, cfgWrites := [(slot, value)] }
      else
        { base with resultCode := some MGMT_ERR_FLASH }
    else
      { base with resultCode := some MGMT_ERR_NOT_ADMIN }
  else if action = MGMT_GET_PARAM then
    let value := (cfg sess.management_param_id).getD 0
    { base with resultCode := some MGMT_OK, param_val_out := value }
  else if action = MGMT_SET_NAME then
    let bytes := sess.management_name
    let len := firstZeroLen bytes
    let slice := bytes.take len
    let name_str := if utf8Valid slice then slice else []
    if flashOk then
      { base with resultCode := some MGMT_OK, nameWrite := some (nameToBytes name_str) }
    else
      { base with resultCode := some MGMT_ERR_FLASH }
  else
    { base with resultCode := some MGMT_ERR_INVALID }

/-! ## Theorems -/

/-- A neutral GATT server state used to build concrete test states. -/
def sess0 : GattState :=
  { nonce := List.replicate 32 0
    client_pubkey := List.replicate 33 0
    client_nonce := List.replicate 32 0
    client_key_ack := false
    authenticate_ack := false
    auth_action := 1
    perm := 0
    management := 0
    management_key := List.replicate 33 0
    management_param_id := 0
    management_param_val := 0
    management_name := List.replicate 64 0 }

/-- C10: reading the gate state with `get_state` is destructive — it takes
the pending value out of the single-slot state signal, so a read with no
`set_state` since the previous read returns `Closed` regardless of the
gate's actual state; in particular two consecutive reads return the pending
state and then `Closed`, while a read right after `set_state s` returns
`s`. -/
theorem C10_get_state_destructive (sig : Option GateState) (s : GateState) :
    (get_state (some s)).1 = s ∧
    (get_state sig).2 = none ∧
    (get_state (get_state sig).2).1 = GateState.Closed ∧
    (get_state (set_state sig s)).1 = s := by
  simp [get_state, set_state]

/-- C2 counterexample: the per-connection reset performed by `run` does NOT
reset `perm` — a connection accepted while the server still holds
`perm = 0x80` from a previous connection starts with a nonzero `perm`,
contradicting the claim that `perm = 0` on connect. -/
theorem C2_counterexample :
    (onConnect { sess0 with perm := 0x80 } [66] (List.replicate 32 9)).perm ≠ 0 := by
  decide

/-- C2 amended: when a new connection is accepted, `run` resets
`client_key_ack` to false, `authenticate_ack` to false, `auth_action` to 1,
`management` to 0 and re-samples `nonce` from the RNG, before any client
attribute access is served; `perm` (as well as `client_pubkey` and
`client_nonce`) is NOT reset and retains its value from the previous
connection. -/
theorem C2_connect_resets_all_but_perm (s : GattState) (nm nn : List Nat) :
    (onConnect s nm nn).client_key_ack = false ∧
    (onConnect s nm nn).authenticate_ack = false ∧
    (onConnect s nm nn).auth_action = 1 ∧
    (onConnect s nm nn).management = 0 ∧
    (onConnect s nm nn).nonce = nn ∧
    (onConnect s nm nn).perm = s.perm ∧
    (onConnect s nm nn).client_pubkey = s.client_pubkey ∧
    (onConnect s nm nn).client_nonce = s.client_nonce := by
  simp [onConnect]

/-- `keys_match` is reflexive. -/
theorem keys_match_refl (k : Key) : keys_match k k = true := by
  simp [keys_match]

/-- `lookup` of `k` on a table with `k` appended and no earlier match
returns `k`'s first byte. -/
theorem lookup_append_self (keys : List Key) (k : Key)
    (h : keys.any (fun stored => keys_match stored k) = false) :
    KeyStore.lookup ⟨keys ++ [k]⟩ k = k.headD 0 := by
  unfold KeyStore.lookup
  rw [List.find?_append]
  have h1 : keys.find? (fun stored => keys_match stored k) = none := by
    rw [List.find?_eq_none]
    exact List.any_eq_false.mp h
  simp [h1, List.find?, keys_match_refl k]

/-- C8 counterexample: the all-zero 33-byte key is accepted by `add`
(returned `Added`), yet `lookup` afterwards returns the stored first byte,
which is 0 — not a nonzero byte as the claim states. -/
theorem C8_counterexample :
    (KeyStore.add true ⟨[]⟩ (List.replicate 33 0)).1 = Except.ok true ∧
    (KeyStore.add true ⟨[]⟩ (List.replicate 33 0)).2.lookup (List.replicate 33 0) = 0 := by
  decide

/-- C8 amended: after `add(k)` returns `Added`, a subsequent `lookup(k)`
returns exactly the stored byte `k[0]` — whose low two bits equal
`k[0] & 0x03`, and which is nonzero exactly when `k[0] ≠ 0` (the claim's
unconditional "nonzero" fails for `k[0] = 0`). -/
theorem C8_lookup_after_add (flashOk : Bool) (s : KeyStore) (k : Key)
    (h : (KeyStore.add flashOk s k).1 = Except.ok true) :
    (KeyStore.add flashOk s k).2.lookup k = k.headD 0 ∧
    (KeyStore.add flashOk s k).2.lookup k &&& 3 = k.headD 0 &&& 3 := by
  have hkey : (KeyStore.add flashOk s k).2 = ⟨s.keys ++ [k]⟩ ∧
      s.keys.any (fun stored => keys_match stored k) = false := by
    unfold KeyStore.add at h ⊢
    by_cases h1 : s.keys.any (fun stored => keys_match stored k) = true
    · rw [if_pos h1] at h
      exact absurd h (by simp)
    · rw [if_neg h1] at h ⊢
      by_cases h2 : STORE_KEYS ≤ s.keys.length
      · rw [if_pos h2] at h
        exact absurd h (by simp)
      · rw [if_neg h2] at h ⊢
        refine ⟨?_, by simpa using h1⟩
        by_cases h3 : flashOk = true
        · rw [if_pos h3]
        · rw [if_neg h3]
  rw [hkey.1, lookup_append_self s.keys k hkey.2]
  exact ⟨rfl, rfl⟩

/-- Concrete key for the C8 witness. -/
def keyC8 : Key := 4 :: List.replicate 32 7

/-- C8 witness: `C8_lookup_after_add` at a concrete input. -/
theorem C8_witness :
    (KeyStore.add true ⟨[]⟩ keyC8).2.lookup keyC8 = keyC8.headD 0 ∧
    (KeyStore.add true ⟨[]⟩ keyC8).2.lookup keyC8 &&& 3 = keyC8.headD 0 &&& 3 :=
  C8_lookup_after_add true ⟨[]⟩ keyC8 (by decide)

/-- An authenticated plain-admin session holding a fresh 33-byte key in the
management key buffer. -/
def sessC3 : GattState :=
  { sess0 with
    perm := 0x80
    authenticate_ack := true
    management_key := List.replicate 33 5 }

/-- C3: evaluating the code at the failing input — an authenticated admin
session issues `ADD_KEY` for a fresh key and the flash write fails.  The
failure is surfaced as `ERR_FLASH` (that part of the claim holds), but the
in-memory key table is NOT left as it was: the key remains pushed, because
`KeyStore::add` propagates the flash error with `?` after `self.keys.push`
without restoring the previous state. -/
theorem C3_flash_error_keeps_pushed_key :
    (managementWrite sessC3 ⟨[]⟩ MGMT_ADD_KEY false
        (fun _ => none)).resultCode = some MGMT_ERR_FLASH ∧
    (managementWrite sessC3 ⟨[]⟩ MGMT_ADD_KEY false
        (fun _ => none)).keys = ⟨[List.replicate 33 5]⟩ ∧
    (⟨[List.replicate 33 5]⟩ : KeyStore) ≠ ⟨[]⟩ := by
  decide

/-- An authenticated SET_PARAM_ADMIN session targeting slot 31 with value 5. -/
def sessC1 : GattState :=
  { sess0 with
    perm := 0xA0
    authenticate_ack := true
    management_param_id := 31
    management_param_val := 5 }

/-- C1 counterexample: an authenticated SET_PARAM_ADMIN session writes
`SET_PARAM` with slot 31 — the handler triggers the software reset
(`resultCode = none`) while performing NO durable config write, so the
written value is not persisted before the reset and is not observable after
reboot. -/
theorem C1_counterexample :
    (managementWrite sessC1 ⟨[]⟩ MGMT_SET_PARAM true (fun _ => none)).resultCode = none ∧
    (managementWrite sessC1 ⟨[]⟩ MGMT_SET_PARAM true (fun _ => none)).cfgWrites = [] := by
  decide

/-- C1 amended: for every authenticated SET_PARAM_ADMIN session, a
management `SET_PARAM` write targeting slot 31 triggers the software reset
immediately, BEFORE any persistence: `software_reset()` is called before
`config.set_slot`, so the handler never returns and the value is never
written to the config store. -/
theorem C1_slot31_reset_before_persist (sess : GattState) (ks : KeyStore)
    (flashOk : Bool) (cfg : Nat → Option Nat)
    (hadmin : sess.perm &&& PERM_ADMIN = PERM_ADMIN)
    (hset : sess.perm &&& PERM_SETADMIN = PERM_SETADMIN)
    (hauth : sess.authenticate_ack = true)
    (hslot : sess.management_param_id = 31) :
    (managementWrite sess ks MGMT_SET_PARAM flashOk cfg).resultCode = none ∧
    (managementWrite sess ks MGMT_SET_PARAM flashOk cfg).cfgWrites = [] ∧
    (managementWrite sess ks MGMT_SET_PARAM flashOk cfg).keys = ks ∧
    (managementWrite sess ks MGMT_SET_PARAM flashOk cfg).nameWrite = none := by
  have hadmin' : sess.perm &&& 128 = 128 := by simpa [PERM_ADMIN] using hadmin
  have hset' : sess.perm &&& 32 = 32 := by simpa [PERM_SETADMIN] using hset
  unfold managementWrite
  simp [hadmin', hset', hauth, hslot, MGMT_SET_PARAM, MGMT_ADD_KEY, MGMT_DEL_KEY,
    MGMT_GET_KEY, PERM_ADMIN, PERM_SETADMIN]

/-- C1 witness: `C1_slot31_reset_before_persist` at a concrete input. -/
theorem C1_witness :
    (managementWrite sessC1 ⟨[]⟩ MGMT_SET_PARAM false (fun _ => none)).resultCode = none ∧
    (managementWrite sessC1 ⟨[]⟩ MGMT_SET_PARAM false (fun _ => none)).cfgWrites = [] ∧
    (managementWrite sessC1 ⟨[]⟩ MGMT_SET_PARAM false (fun _ => none)).keys = ⟨[]⟩ ∧
    (managementWrite sessC1 ⟨[]⟩ MGMT_SET_PARAM false (fun _ => none)).nameWrite = none :=
  C1_slot31_reset_before_persist sessC1 ⟨[]⟩ false (fun _ => none)
    (by decide) (by decide) (by decide) (by decide)

/-- Crypto oracles for which every 32-byte Edwards key is invalid (such keys
exist: most 32-byte strings fail Edwards point decompression). -/
def cryptoBadKey : Crypto :=
  { sha256 := fun _ => List.replicate 32 0
    edKeyValid := fun _ => false
    edVerify := fun _ _ _ => false
    p256Verify := fun _ _ _ => false }

/-- A session whose `client_pubkey` declares key type 1 (Edwards). -/
def sessC4 : GattState :=
  { sess0 with client_pubkey := 1 :: List.replicate 32 9 }

/-- C4 counterexample: a 64-byte `authenticate` write with a declared-type-1
`client_pubkey` whose key material is not a valid Edwards key does NOT
complete — `VerifyingKey::from_bytes(..).map_err(|_| Error::InvalidValue)?`
aborts the handler with a transport-level error, so `authenticate_ack` is
not written and no audit entry is appended. -/
theorem C4_counterexample :
    authenticateWrite cryptoBadKey sessC4 AuthLog.new (List.replicate 64 0) 0
      (List.replicate 6 0) = Except.error BleError.invalidValue := by
  rfl

/-- C4 amended: every `authenticate` write completes without a
transport-level error, sets `authenticate_ack` to the verification result
`authVerifyResult` — which is false when the payload length is not 64 (the
second conjunct states this explicitly) or when verification fails — and
appends exactly one audit entry whose success flag equals that same
result — EXCEPT when the payload length is 64, `client_pubkey[0] = 1` and
the Edwards key fails to parse, in which case the handler aborts with
`Error::InvalidValue` without touching `authenticate_ack` or the log. -/
theorem C4_authenticate_total (c : Crypto) (s : GattState) (log : AuthLog)
    (d : List Nat) (now : Nat) (peerAddr : List Nat)
    (h : ¬(d.length = 64 ∧ s.client_pubkey.headD 0 = 1 ∧
           c.edKeyValid (s.client_pubkey.drop 1) = false)) :
    (∃ cs : List FsmCommand,
      authenticateWrite c s log d now peerAddr =
        Except.ok
          { state := { s with authenticate_ack := authVerifyResult c s d }
            log := log.push
              { pubkey := s.client_pubkey
                uptime_ms := now
                addr := peerAddr
                auth_action := s.auth_action
                success := authVerifyResult c s d }
            cmds := cs }) ∧
    (d.length ≠ 64 → authVerifyResult c s d = false) := by
  constructor
  · unfold authenticateWrite authVerifyResult
    by_cases h64 : d.length = 64
    · by_cases hk1 : s.client_pubkey.headD 0 = 1
      · have hv : c.edKeyValid (s.client_pubkey.drop 1) = true := by
          rcases Bool.eq_false_or_eq_true (c.edKeyValid (s.client_pubkey.drop 1)) with ht | hf
          · exact ht
          · exact absurd ⟨h64, hk1, hf⟩ h
        simp only [h64, hk1, hv, if_true, if_pos]
        exact ⟨_, rfl⟩
      · by_cases hk23 : s.client_pubkey.headD 0 = 2 ∨ s.client_pubkey.headD 0 = 3
        · simp only [h64, hk1, hk23, if_true, if_false, if_pos, if_neg, not_false_iff]
          exact ⟨_, rfl⟩
        · simp only [h64, hk1, hk23, if_pos, if_neg, not_false_iff]
          exact ⟨[], rfl⟩
    · simp only [h64, if_neg, not_false_iff]
      exact ⟨[], rfl⟩
  · intro hne
    simp only [authVerifyResult, if_neg hne]

/-- C4 witness: `C4_authenticate_total` at a concrete input — a payload of
length 2 yields `authenticate_ack = false` (stated with the literal `false`,
to which `authVerifyResult` evaluates here) and one audit entry with
`success = false`. -/
theorem C4_witness :
    (∃ cs : List FsmCommand,
      authenticateWrite cryptoBadKey sessC4 AuthLog.new [1, 2] 3
        (List.replicate 6 0) =
        Except.ok
          { state := { sessC4 with authenticate_ack := false }
            log := AuthLog.new.push
              { pubkey := sessC4.client_pubkey
                uptime_ms := 3
                addr := List.replicate 6 0
                auth_action := sessC4.auth_action
                success := false }
            cmds := cs }) ∧
    (([1, 2] : List Nat).length ≠ 64 →
      authVerifyResult cryptoBadKey sessC4 [1, 2] = false) :=
  C4_authenticate_total cryptoBadKey sessC4 AuthLog.new [1, 2] 3
    (List.replicate 6 0) (by decide)

/-- The code's loop state simulates the claim-side chain state: `do_close`
equals the chain length, and `last_close_attempt` is the last pulse time
when one exists (before any pulse the chain length is 0 and the counter's
comparison against the state-entry time is irrelevant, since an increment
from 0 and a restart both yield 1). -/
theorem runOpenDisabled_eq_specTrigger
    (evs : List (Nat × (FsmCommand ⊕ GpiEvent))) :
    ∀ (st : OpenLoopState) (lp : Option Nat) (len : Nat),
      st.do_close = len →
      (∀ t, lp = some t → st.last_close_attempt = t) →
      (lp = none → len = 0) →
      runOpenDisabled st evs = specTrigger lp len evs := by
  induction evs with
  | nil => intro st lp len _ _ _; rfl
  | cons hd rest ih =>
      obtain ⟨t, ev⟩ := hd
      intro st lp len h1 h2 h3
      match ev with
      | Sum.inl FsmCommand.Open =>
          simp only [runOpenDisabled, specTrigger, openDisabledStep]
          exact congrArg (Option.map _) (ih st lp len h1 h2 h3)
      | Sum.inl FsmCommand.Close =>
          simp only [runOpenDisabled, specTrigger, openDisabledStep]
      | Sum.inl FsmCommand.StopAutoClose =>
          simp only [runOpenDisabled, specTrigger, openDisabledStep]
          exact congrArg (Option.map _) (ih st lp len h1 h2 h3)
      | Sum.inr GpiEvent.ObstacleDetected =>
          simp only [runOpenDisabled, specTrigger, openDisabledStep]
          exact congrArg (Option.map _) (ih st lp len h1 h2 h3)
      | Sum.inr GpiEvent.ObstacleCleared =>
          simp only [runOpenDisabled, specTrigger, openDisabledStep]
          exact congrArg (Option.map _) (ih st lp len h1 h2 h3)
      | Sum.inr GpiEvent.ControlPulse =>
          have hdc : (if t - st.last_close_attempt < 10000 then st.do_close + 1 else 1)
              = specChainStep lp len t := by
            cases lp with
            | none =>
                have hz := h3 rfl
                simp [specChainStep, h1, hz]
            | some tp =>
                rw [h2 tp rfl, h1]
                rfl
          simp only [runOpenDisabled, specTrigger, openDisabledStep, hdc]
          by_cases htrig : 2 < specChainStep lp len t
          · rw [if_pos htrig, if_pos (by omega)]
          · rw [if_neg htrig, if_neg (by omega)]
            simp only [runOpenDisabled]
            exact congrArg (Option.map _)
              (ih ⟨specChainStep lp len t, t⟩ (some t) (specChainStep lp len t) rfl
                (by intro u hu; cases hu; rfl) (by intro hc; cases hc))

/-- C7: in the Open state with autoclose disabled (at entry or by
`StopAutoClose`, both of which leave the pulse counter at 0 and
`last_close_attempt` at the state-entry instant), the FSM transitions to
Closing exactly at the first event that is an explicit `Close` command or
the third `ControlPulse` of a sequence in which each pulse follows the
previous one within 10 seconds (formalized as a gap strictly below
10000 ms); a longer gap restarts the counter at 1 (`specTrigger` is the
claim-side definition of this trigger point). -/
theorem C7_open_disabled_closing_trigger (entry : Nat)
    (evs : List (Nat × (FsmCommand ⊕ GpiEvent))) :
    runOpenDisabled ⟨0, entry⟩ evs = specTrigger none 0 evs :=
  runOpenDisabled_eq_specTrigger evs ⟨0, entry⟩ none 0 rfl
    (by intro t h; cases h) (fun _ => rfl)

/-- Pushing a snoc list is pushing the last entry after the rest. -/
theorem pushAll_concat (l : AuthLog) (L : List AuthLogEntry) (e : AuthLogEntry) :
    AuthLog.pushAll l (L ++ [e]) = (AuthLog.pushAll l L).push e := by
  simp [AuthLog.pushAll]

/-- After `n` pushes from empty, `write_idx = n % 100` and
`count = min n 100`. -/
theorem pushAll_write_idx_count (L : List AuthLogEntry) :
    (AuthLog.pushAll AuthLog.new L).write_idx = L.length % 100 ∧
    (AuthLog.pushAll AuthLog.new L).count = min L.length 100 := by
  induction L using List.reverseRecOn with
  | nil => exact ⟨rfl, rfl⟩
  | append_singleton L e ih =>
      obtain ⟨h1, h2⟩ := ih
      rw [pushAll_concat]
      constructor
      · simp only [AuthLog.push, AUTH_LOG_CAP, h1, List.length_append,
          List.length_cons, List.length_nil]
        omega
      · simp only [AuthLog.push, AUTH_LOG_CAP, h2, List.length_append,
          List.length_cons, List.length_nil]
        split <;> omega

/-- Pushing an entry makes it readable at index 0. -/
theorem get_push_zero (l : AuthLog) (e : AuthLogEntry)
    (hw : l.write_idx < 100) :
    (l.push e).get 0 = some e := by
  simp only [AuthLog.get, AuthLog.push, AUTH_LOG_CAP]
  rw [if_neg (by split <;> omega)]
  have hp : ((if (l.write_idx + 1) % 100 = 0 then 99 else (l.write_idx + 1) % 100 - 1)
      + 100 - 0) % 100 = l.write_idx := by
    split <;> omega
  rw [hp, if_pos rfl]

/-- Pushing an entry shifts all previously readable indices up by one. -/
theorem get_push_succ (l : AuthLog) (e : AuthLogEntry) (i : Nat)
    (hw : l.write_idx < 100) (hc : l.count ≤ 100)
    (hi : i + 1 < (l.push e).count) :
    (l.push e).get (i + 1) = l.get i := by
  have hi' : i + 1 < (if l.count < AUTH_LOG_CAP then l.count + 1 else l.count) := hi
  simp only [AUTH_LOG_CAP] at hi'
  have hii : i < l.count := by split at hi' <;> omega
  have hile : i ≤ 98 := by split at hi' <;> omega
  have hA : ¬ ((if l.count < AUTH_LOG_CAP then l.count + 1 else l.count) ≤ i + 1) := by
    simp only [AUTH_LOG_CAP]
    split at hi' <;> split <;> omega
  have hB : ¬ (l.count ≤ i) := by omega
  have hne : ¬ (((if (l.write_idx + 1) % AUTH_LOG_CAP = 0 then AUTH_LOG_CAP - 1
        else (l.write_idx + 1) % AUTH_LOG_CAP - 1) + AUTH_LOG_CAP - (i + 1)) % AUTH_LOG_CAP
        = l.write_idx) := by
    simp only [AUTH_LOG_CAP]
    split <;> omega
  have hpos : ((if (l.write_idx + 1) % AUTH_LOG_CAP = 0 then AUTH_LOG_CAP - 1
        else (l.write_idx + 1) % AUTH_LOG_CAP - 1) + AUTH_LOG_CAP - (i + 1)) % AUTH_LOG_CAP
      = ((if l.write_idx = 0 then AUTH_LOG_CAP - 1 else l.write_idx - 1)
          + AUTH_LOG_CAP - i) % AUTH_LOG_CAP := by
    simp only [AUTH_LOG_CAP]
    split <;> split <;> omega
  show (if (if l.count < AUTH_LOG_CAP then l.count + 1 else l.count) ≤ i + 1 then none
      else some (if ((if (l.write_idx + 1) % AUTH_LOG_CAP = 0 then AUTH_LOG_CAP - 1
              else (l.write_idx + 1) % AUTH_LOG_CAP - 1) + AUTH_LOG_CAP - (i + 1)) % AUTH_LOG_CAP
              = l.write_idx then e
            else l.entries (((if (l.write_idx + 1) % AUTH_LOG_CAP = 0 then AUTH_LOG_CAP - 1
              else (l.write_idx + 1) % AUTH_LOG_CAP - 1) + AUTH_LOG_CAP - (i + 1)) % AUTH_LOG_CAP)))
    = (if l.count ≤ i then none
      else some (l.entries (((if l.write_idx = 0 then AUTH_LOG_CAP - 1 else l.write_idx - 1)
          + AUTH_LOG_CAP - i) % AUTH_LOG_CAP)))
  rw [if_neg hA, if_neg hB, if_neg hne, hpos]

/-- Entry `i` of the log built by pushing `L` in order is the `(i+1)`-th
newest, i.e. `L[L.length - 1 - i]`. -/
theorem pushAll_get (L : List AuthLogEntry) (i : Nat)
    (hi : i < min L.length 100) :
    (AuthLog.pushAll AuthLog.new L).get i = L[L.length - 1 - i]? := by
  induction L using List.reverseRecOn generalizing i with
  | nil => simp at hi
  | append_singleton L e ih =>
      obtain ⟨hw, hcnt⟩ := pushAll_write_idx_count L
      have hinv' := (pushAll_write_idx_count (L ++ [e])).2
      rw [pushAll_concat] at hinv' ⊢
      rcases i with _ | j
      · rw [get_push_zero _ _ (by omega)]
        have hlen : (L ++ [e]).length - 1 - 0 = L.length := by
          simp
        rw [hlen, List.getElem?_concat_length]
      · have hi' : j + 1 < ((AuthLog.pushAll AuthLog.new L).push e).count := by
          rw [hinv']
          simpa using hi
        have hj : j < min L.length 100 := by
          simp only [List.length_append, List.length_cons, List.length_nil] at hi
          omega
        rw [get_push_succ _ _ _ (by omega) (by omega) hi', ih j hj]
        have hjL : j < L.length := by omega
        have hidx : (L ++ [e]).length - 1 - (j + 1) = L.length - 1 - j := by
          simp only [List.length_append, List.length_cons, List.length_nil]
          omega
        rw [hidx, List.getElem?_append]
        rw [if_pos (by omega)]

/-- C6: for the audit-log ring buffer, after pushing the entries of `L` in
order, `count = min L.length 100`; for every `i < count` the entry at index
`i` is the `(i+1)`-th newest (index 0 the most recent, with strict FIFO
eviction once 100 entries have been exceeded); and reading the 50-byte
encoding at any index `≥ count` yields the all-zero buffer, whose flags
byte is 0 (invalid). -/
theorem C6_audit_ring (L : List AuthLogEntry) :
    (AuthLog.pushAll AuthLog.new L).count = min L.length 100 ∧
    (∀ i, i < min L.length 100 →
      (AuthLog.pushAll AuthLog.new L).get i = L[L.length - 1 - i]?) ∧
    (∀ i, (AuthLog.pushAll AuthLog.new L).count ≤ i →
      (AuthLog.pushAll AuthLog.new L).entry_bytes i =
        List.replicate AUTH_LOG_ENTRY_LEN 0) := by
  refine ⟨(pushAll_write_idx_count L).2, pushAll_get L, ?_⟩
  intro i hi
  simp [AuthLog.entry_bytes, AuthLog.get, hi]

/-- A concrete audit entry for the C6 witness. -/
def entryA : AuthLogEntry :=
  ⟨List.replicate 33 1, 11, List.replicate 6 2, 1, true⟩

/-- A second concrete audit entry for the C6 witness. -/
def entryB : AuthLogEntry :=
  ⟨List.replicate 33 3, 22, List.replicate 6 4, 3, false⟩

/-- C6 witness: `C6_audit_ring` at a concrete two-entry input — the count is
2, index 0 holds the newest entry, index 1 the older one, and index 5 reads
as the all-zero encoding. -/
theorem C6_witness :
    (AuthLog.pushAll AuthLog.new [entryA, entryB]).count = min 2 100 ∧
    (AuthLog.pushAll AuthLog.new [entryA, entryB]).get 0 = [entryA, entryB][2 - 1 - 0]? ∧
    (AuthLog.pushAll AuthLog.new [entryA, entryB]).get 1 = [entryA, entryB][2 - 1 - 1]? ∧
    (AuthLog.pushAll AuthLog.new [entryA, entryB]).entry_bytes 5 =
      List.replicate AUTH_LOG_ENTRY_LEN 0 :=
  ⟨(C6_audit_ring [entryA, entryB]).1,
   (C6_audit_ring [entryA, entryB]).2.1 0 (by decide),
   (C6_audit_ring [entryA, entryB]).2.1 1 (by decide),
   (C6_audit_ring [entryA, entryB]).2.2 5
     (by rw [(C6_audit_ring [entryA, entryB]).1]; decide)⟩

/-- The first-zero index of a list followed by at least one zero byte is the
length of its zero-free leading segment, at accumulator `i`. -/
theorem findIdx_zero_pad (l : List Nat) (m : Nat) (hm : 0 < m) :
    ∀ i, (l ++ List.replicate m 0).findIdx? (fun b => b == 0) i =
      some (i + (l.takeWhile (fun b => !(b == 0))).length) := by
  induction l with
  | nil =>
      intro i
      obtain ⟨m', rfl⟩ : ∃ m', m = m' + 1 := ⟨m - 1, by omega⟩
      simp [List.replicate_succ, List.findIdx?_cons]
  | cons a l ih =>
      intro i
      by_cases ha : a = 0
      · simp [ha, List.findIdx?_cons, List.takeWhile_cons]
      · rw [List.cons_append, List.findIdx?_cons, if_neg (by simp [ha]), ih (i + 1)]
        rw [List.takeWhile_cons, if_pos (by simp [ha])]
        simp only [List.length_cons]
        rw [Nat.add_comm (List.takeWhile (fun b => !(b == 0)) l).length 1]
        rw [Nat.add_assoc]

/-- Taking the zero-free leading segment's length from the padded array
recovers exactly that segment. -/
theorem take_takeWhile_len (l : List Nat) (tail : List Nat) :
    (l ++ tail).take (l.takeWhile (fun b => !(b == 0))).length =
      l.takeWhile (fun b => !(b == 0)) := by
  induction l with
  | nil => simp
  | cons a l ih =>
      by_cases ha : a = 0
      · simp [ha, List.takeWhile_cons]
      · rw [List.takeWhile_cons, if_pos (by simp [ha])]
        simp only [List.length_cons, List.cons_append, List.take_succ_cons]
        rw [ih]

/-- The slice read back by `get_name` from the array stored by `set_name n`
is the zero-free leading segment of `n` truncated to 63 bytes. -/
theorem nameToBytes_slice (n : List Nat) :
    (nameToBytes n).take (firstZeroLen (nameToBytes n)) =
      (n.take 63).takeWhile (fun b => !(b == 0)) := by
  have hk : n.take (min n.length (MAX_NAME_LEN - 1)) = n.take 63 := by
    rcases Nat.le_total n.length 63 with h | h
    · rw [show min n.length (MAX_NAME_LEN - 1) = n.length by
        simp only [MAX_NAME_LEN]; omega]
      rw [List.take_of_length_le (Nat.le_refl _), List.take_of_length_le h]
    · rw [show min n.length (MAX_NAME_LEN - 1) = 63 by
        simp only [MAX_NAME_LEN]; omega]
  have hm : 0 < MAX_NAME_LEN - min n.length (MAX_NAME_LEN - 1) := by
    simp only [MAX_NAME_LEN]; omega
  simp only [nameToBytes, firstZeroLen]
  rw [findIdx_zero_pad _ _ hm 0, Option.getD_some, Nat.zero_add, hk,
    take_takeWhile_len]

/-- The zero-free leading segment of the 63-byte truncation fits in 63
bytes. -/
theorem slice_len_le (n : List Nat) :
    ((n.take 63).takeWhile (fun b => !(b == 0))).length ≤ 63 := by
  have h1 : ((n.take 63).takeWhile (fun b => !(b == 0))).length ≤ (n.take 63).length :=
    List.Sublist.length_le (List.takeWhile_sublist _)
  have h2 : (n.take 63).length ≤ 63 := by
    rw [List.length_take]; omega
  omega

/-- C9 counterexample: a valid 64-byte UTF-8 name whose 63-byte truncation
splits a two-byte character.  `set_name` stores the truncation; `get_name`
finds it invalid UTF-8 and falls back to the default — NOT the 63-byte
truncation the claim promises. -/
theorem C9_counterexample :
    utf8Valid (List.replicate 62 0x61 ++ [0xC3, 0xA9]) = true ∧
    get_name [0x42] (some (nameToBytes (List.replicate 62 0x61 ++ [0xC3, 0xA9]))) = [0x42] ∧
    (List.replicate 62 0x61 ++ [0xC3, 0xA9]).take 63 ≠ [0x42] := by
  decide

/-- C9 amended: after a successful `set_name n`, `get_name d` (for any
default `d` of at most 64 bytes) returns the zero-free leading segment of
`n` truncated to 63 bytes, provided that segment is nonempty and valid
UTF-8; otherwise it returns the default `d`.  In particular an empty stored
value (empty `n`, or `n` starting with a NUL byte) yields the default. -/
theorem C9_set_get_name (n d : List Nat) (hd : d.length ≤ MAX_NAME_LEN) :
    get_name d (some (nameToBytes n)) =
      (if utf8Valid ((n.take 63).takeWhile (fun b => !(b == 0))) = true ∧
          (n.take 63).takeWhile (fun b => !(b == 0)) ≠ [] then
        (n.take 63).takeWhile (fun b => !(b == 0))
       else d) := by
  have hslice := nameToBytes_slice n
  have hlen := slice_len_le n
  have hpushd : pushStr [] d = d := by
    unfold pushStr
    rw [if_pos (by simpa using hd), List.nil_append]
  simp only [get_name]
  rw [hslice]
  by_cases hv : utf8Valid ((n.take 63).takeWhile (fun b => !(b == 0))) = true
  · rw [if_pos hv]
    have hpush : pushStr [] ((n.take 63).takeWhile (fun b => !(b == 0))) =
        (n.take 63).takeWhile (fun b => !(b == 0)) := by
      unfold pushStr
      rw [if_pos (by simp only [List.length_nil, MAX_NAME_LEN]; omega)]
      rw [List.nil_append]
    rw [hpush]
    by_cases hne : (n.take 63).takeWhile (fun b => !(b == 0)) = []
    · rw [hne]
      rw [if_pos (show (List.isEmpty ([] : List Nat)) = true from rfl)]
      rw [if_neg (show ¬(utf8Valid ([] : List Nat) = true ∧ ([] : List Nat) ≠ []) by simp)]
      exact hpushd
    · rw [if_neg (show ¬((List.takeWhile (fun b => !(b == 0)) (n.take 63)).isEmpty = true) by
          simpa [List.isEmpty_iff] using hne)]
      rw [if_pos ⟨hv, hne⟩]
  · rw [if_neg hv]
    rw [if_pos (show (List.isEmpty ([] : List Nat)) = true from rfl)]
    rw [if_neg (show ¬(utf8Valid ((n.take 63).takeWhile (fun b => !(b == 0))) = true ∧
        (n.take 63).takeWhile (fun b => !(b == 0)) ≠ []) by simp [hv])]
    exact hpushd

/-- C9 witness: `C9_set_get_name` at a concrete input — storing the one-byte
name `[0x61]` and reading it back with default `[0x42]` returns `[0x61]`. -/
theorem C9_witness :
    get_name [0x42] (some (nameToBytes [0x61])) =
      (if utf8Valid (([0x61].take 63).takeWhile (fun b => !(b == 0))) = true ∧
          ([0x61].take 63).takeWhile (fun b => !(b == 0)) ≠ [] then
        ([0x61].take 63).takeWhile (fun b => !(b == 0))
       else [0x42]) :=
  C9_set_get_name [0x61] [0x42] (by decide)

/-- A state with all relays off is determined up to its lamp field. -/
theorem relaysOff_eq (s : GpoState) (h : relaysOff s = true) :
    s = GpoState.mk false false false false s.lamp_state := by
  obtain ⟨a, b, c, d, lamp⟩ := s
  simp only [relaysOff, Bool.and_eq_true, Bool.not_eq_true'] at h
  obtain ⟨⟨⟨h1, h2⟩, h3⟩, h4⟩ := h
  subst h1 h2 h3 h4
  rfl

/-- An Opening episode started with all relays off keeps open and close
relays of each door disjoint at every point, and ends with all relays
off. -/
theorem opening_episode_safe (lamp : LampState) :
    ∀ m ∈ interleavings (openSeq Door.Left) (openSeq Door.Right),
      relaysOff (applyCmds (GpoState.mk false false false false lamp)
        (lampOn :: m ++ [lampOff])) = true ∧
      ∀ p ∈ (lampOn :: m ++ [lampOff]).inits,
        noConflict (applyCmds (GpoState.mk false false false false lamp) p) = true := by
  cases lamp <;> decide

/-- A completed Closing episode started with all relays off keeps open and
close relays of each door disjoint at every point, and ends with all relays
off. -/
theorem closing_done_episode_safe (lamp : LampState) :
    ∀ m ∈ interleavings (closeSeq Door.Left) (closeSeq Door.Right),
      relaysOff (applyCmds (GpoState.mk false false false false lamp)
        (lampOn :: m ++ [lampOff])) = true ∧
      ∀ p ∈ (lampOn :: m ++ [lampOff]).inits,
        noConflict (applyCmds (GpoState.mk false false false false lamp) p) = true := by
  cases lamp <;> decide

/-- An aborted (obstacle-reversal) Closing episode started with all relays
off keeps open and close relays of each door disjoint at every point, and
its trailing explicit `stop_closing` pair leaves all relays off before the
transition to Opening. -/
theorem closing_abort_episode_safe (lamp : LampState) :
    ∀ pL ∈ (closeSeq Door.Left).inits, ∀ pR ∈ (closeSeq Door.Right).inits,
      ∀ m ∈ interleavings pL pR,
        relaysOff (applyCmds (GpoState.mk false false false false lamp)
          (lampOn :: m ++ [GpoCommand.SetDoorClose Door.Left false,
                           GpoCommand.SetDoorClose Door.Right false])) = true ∧
        ∀ p ∈ (lampOn :: m ++ [GpoCommand.SetDoorClose Door.Left false,
                               GpoCommand.SetDoorClose Door.Right false]).inits,
          noConflict (applyCmds (GpoState.mk false false false false lamp) p) = true := by
  cases lamp <;> decide

/-- The start-up initialization is safe and ends with all relays off. -/
theorem init_episode_safe :
    relaysOff (applyCmds GpoState.new initCmds) = true ∧
    ∀ p ∈ initCmds.inits, noConflict (applyCmds GpoState.new p) = true := by
  decide

/-- Every FSM-loop boundary has all door relays deasserted. -/
theorem boundary_relaysOff {g : GateState} {s : GpoState}
    (h : ReachBoundary g s) : relaysOff s = true := by
  induction h with
  | start => exact init_episode_safe.1
  | step hb he ih =>
      cases he with
      | closed_open => exact ih
      | open_closing => exact ih
      | opening m hm =>
          rw [relaysOff_eq _ ih]
          exact (opening_episode_safe _ m hm).1
      | closing_done m hm =>
          rw [relaysOff_eq _ ih]
          exact (closing_done_episode_safe _ m hm).1
      | closing_abort pL pR m hL hR hm =>
          rw [relaysOff_eq _ ih]
          exact (closing_abort_episode_safe _ pL hL pR hR m hm).1

/-- A state with all relays off trivially has no conflict. -/
theorem relaysOff_noConflict (s : GpoState) (h : relaysOff s = true) :
    noConflict s = true := by
  rw [relaysOff_eq _ h]
  rfl

/-- C5: at no reachable point of the FSM's execution does the output state
have both the open relay and the close relay of the same door asserted —
including across the obstacle-reversal transition from Closing to Opening
(the `closing_abort` episodes of `ReachMid`, followed by Opening
episodes). -/
theorem C5_no_open_close_conflict (s : GpoState) (h : ReachMid s) :
    ¬(s.left_open = true ∧ s.left_close = true) ∧
    ¬(s.right_open = true ∧ s.right_close = true) := by
  have hnc : noConflict s = true := by
    cases h with
    | initPart hp => exact init_episode_safe.2 _ hp
    | @episode g g' s0 t p hb he hp =>
        have hoff := boundary_relaysOff hb
        cases he with
        | closed_open =>
            have hp' : p = ([] : List GpoCommand) := by
              simpa using (List.mem_inits _ _).mp hp
            rw [hp']
            exact relaysOff_noConflict _ hoff
        | open_closing =>
            have hp' : p = ([] : List GpoCommand) := by
              simpa using (List.mem_inits _ _).mp hp
            rw [hp']
            exact relaysOff_noConflict _ hoff
        | opening m hm =>
            rw [relaysOff_eq _ hoff]
            exact (opening_episode_safe _ m hm).2 _ hp
        | closing_done m hm =>
            rw [relaysOff_eq _ hoff]
            exact (closing_done_episode_safe _ m hm).2 _ hp
        | closing_abort pL pR m hL hR hm =>
            rw [relaysOff_eq _ hoff]
            exact (closing_abort_episode_safe _ pL hL pR hR m hm).2 _ hp
  constructor
  · rintro ⟨h1, h2⟩
    simp [noConflict, h1, h2] at hnc
  · rintro ⟨h1, h2⟩
    simp [noConflict, h1, h2] at hnc

/-- C5 witness: `C5_no_open_close_conflict` at the concrete state reached
after the FSM's start-up initialization commands. -/
theorem C5_witness :
    ¬((applyCmds GpoState.new initCmds).left_open = true ∧
      (applyCmds GpoState.new initCmds).left_close = true) ∧
    ¬((applyCmds GpoState.new initCmds).right_open = true ∧
      (applyCmds GpoState.new initCmds).right_close = true) :=
  C5_no_open_close_conflict (applyCmds GpoState.new initCmds)
    (ReachMid.initPart (by decide))

end BlueGate
